import Mathlib

/-!
Verification of the dugong finite-volume mesh geometry/topology core
(`crates/mesh/src/geometry.rs`) against its natural-language specification.

The Rust code is shallowly embedded: the `Vector` type of
`crates/types` (three `f64` components) is modelled over `ℝ`, slices are
modelled as `List`s read through total `getD` accessors, and the in-place
mutation of the per-cell accumulation vectors (`vec![..; n_cells]` updated
by index) is modelled by folds over index ranges updating a function
`ℕ → α` at a point.  Each `let`-stage of the Rust function bodies becomes
a named definition.
-/

namespace Dugong

/-- Three-component vector, modelling `dugong_types::tensor::Vector`
(three `f64` fields, modelled over `ℝ`). -/
@[ext] structure Vector where
  x : ℝ
  y : ℝ
  z : ℝ

namespace Vector

/-- Rust `Vector::zero()`, that is `Vector::new(0.0, 0.0, 0.0)`. -/
noncomputable def zero : Vector := ⟨0, 0, 0⟩

/-- Componentwise addition (`impl Add for Vector`). -/
noncomputable def add (a b : Vector) : Vector := ⟨a.x + b.x, a.y + b.y, a.z + b.z⟩

/-- Componentwise subtraction (`impl Sub for Vector`). -/
noncomputable def sub (a b : Vector) : Vector := ⟨a.x - b.x, a.y - b.y, a.z - b.z⟩

/-- Componentwise negation (`impl Neg for Vector`). -/
noncomputable def neg (a : Vector) : Vector := ⟨-a.x, -a.y, -a.z⟩

/-- Scalar multiplication `v * s` (`impl Mul<f64> for Vector`). -/
noncomputable def smul (a : Vector) (s : ℝ) : Vector := ⟨a.x * s, a.y * s, a.z * s⟩

/-- Scalar division `v / s` (`impl Div<f64> for Vector`). -/
noncomputable def divs (a : Vector) (s : ℝ) : Vector := ⟨a.x / s, a.y / s, a.z / s⟩

/-- Cross product (`Vector::cross`). -/
noncomputable def cross (a b : Vector) : Vector :=
  ⟨a.y * b.z - a.z * b.y, a.z * b.x - a.x * b.z, a.x * b.y - a.y * b.x⟩

/-- Inner product `a * b` (`impl Mul<Vector> for Vector`, the single
contraction returning `f64`). -/
noncomputable def dot (a b : Vector) : ℝ := a.x * b.x + a.y * b.y + a.z * b.z

/-- Euclidean norm (`FieldValue::mag` for `Vector`):
`(x*x + y*y + z*z).sqrt()`. -/
noncomputable def mag (a : Vector) : ℝ := Real.sqrt (a.x * a.x + a.y * a.y + a.z * a.z)

end Vector

noncomputable instance : AddCommMonoid Vector where
  add := Vector.add
  zero := Vector.zero
  nsmul n a := ⟨n * a.x, n * a.y, n * a.z⟩
  nsmul_zero a := by
    show Vector.mk _ _ _ = Vector.zero
    simp [Vector.zero]
  nsmul_succ n a := by
    show Vector.mk _ _ _ = Vector.add _ _
    simp only [Vector.add, Vector.mk.injEq]
    refine ⟨?_, ?_, ?_⟩ <;> push_cast <;> ring
  add_assoc a b c := by
    show Vector.add (Vector.add a b) c = Vector.add a (Vector.add b c)
    simp only [Vector.add, Vector.mk.injEq]
    exact ⟨add_assoc _ _ _, add_assoc _ _ _, add_assoc _ _ _⟩
  zero_add a := by
    show Vector.add Vector.zero a = a
    simp [Vector.add, Vector.zero]
  add_zero a := by
    show Vector.add a Vector.zero = a
    simp [Vector.add, Vector.zero]
  add_comm a b := by
    show Vector.add a b = Vector.add b a
    simp only [Vector.add, Vector.mk.injEq]
    exact ⟨add_comm _ _, add_comm _ _, add_comm _ _⟩

noncomputable instance : Sub Vector := ⟨Vector.sub⟩
noncomputable instance : Neg Vector := ⟨Vector.neg⟩
noncomputable instance : HMul Vector ℝ Vector := ⟨Vector.smul⟩
noncomputable instance : HDiv Vector ℝ Vector := ⟨Vector.divs⟩

/-- Read a point slice at an index (`points[idx]`); total model of the
panicking Rust indexing, defaulting to the zero vector out of range. -/
noncomputable def getV (l : List Vector) (i : ℕ) : Vector := l.getD i 0

/-- Read an index slice at an index (`owner[fi]`, `neighbor[fi]`, `face[i]`). -/
def getN (l : List ℕ) (i : ℕ) : ℕ := l.getD i 0

/-- Read a list-of-index-lists at an index (`faces[fi]`, `cell_faces[c]`). -/
def getF (l : List (List ℕ)) (i : ℕ) : List ℕ := l.getD i []

/-- Read a real slice at an index (`cell_volumes[ci]`). -/
noncomputable def getR (l : List ℝ) (i : ℕ) : ℝ := l.getD i 0

/-- Read the precomputed face-geometry slice at an index (`face_geom[fi]`). -/
noncomputable def getPair (l : List (Vector × Vector)) (i : ℕ) : Vector × Vector := l.getD i (0, 0)

/-- Point update of a function modelling `v[i] = x` on a mutable slice. -/
def upd {α : Type} (f : ℕ → α) (i : ℕ) (v : α) : ℕ → α :=
  fun j => if j = i then v else f j

/-! ## `compute_face_geometry` (geometry.rs lines 13-47)

The body is split at its `let` bindings: `face_p_ref` is the reference
point (lines 17-21), `faceFan` is the fan-triangulation accumulation loop
(lines 23-37, returning `(total_area_vec, weighted_center)`), and
`compute_face_geometry` applies the degenerate-face guard (lines 39-46). -/

/-- Reference point of a face: simple average of its vertices
(geometry.rs lines 17-21). -/
noncomputable def face_p_ref (points : List Vector) (face : List ℕ) : Vector :=
  (face.foldl (fun acc idx => acc + getV points idx) 0) / (face.length : ℝ)

/-- Fan-triangulation loop of `compute_face_geometry`
(geometry.rs lines 23-37): accumulates
`(total_area_vec, weighted_center)` over `i in 0..n`. -/
noncomputable def faceFan (points : List Vector) (face : List ℕ) : Vector × Vector :=
  (List.range face.length).foldl
    (fun acc i =>
      let v_cur := getV points (getN face i)
      let v_next := getV points (getN face ((i + 1) % face.length))
      let tri_area_vec := ((v_cur - face_p_ref points face).cross
        (v_next - face_p_ref points face)) * (0.5 : ℝ)
      let tri_area := tri_area_vec.mag
      let tri_center := (v_cur + v_next + face_p_ref points face) / (3 : ℝ)
      (acc.1 + tri_area_vec, acc.2 + tri_center * tri_area))
    (0, 0)

/-- Embedding of `compute_face_geometry` (geometry.rs lines 13-47): returns
`(face_center, face_area_vector)`, falling back to the reference point
when the total area magnitude is not `> 1e-30`. -/
noncomputable def compute_face_geometry (points : List Vector) (face : List ℕ) :
    Vector × Vector :=
  let total_area := (faceFan points face).1.mag
  let face_center :=
    if total_area > 1e-30 then (faceFan points face).2 / total_area
    else face_p_ref points face
  (face_center, (faceFan points face).1)

/-! ## `compute_cell_geometry` (geometry.rs lines 60-124) -/

/-- The per-face geometry table (geometry.rs lines 69-72). -/
noncomputable def face_geom (points : List Vector) (faces : List (List ℕ)) :
    List (Vector × Vector) :=
  faces.map (fun f => compute_face_geometry points f)

/-- Accumulation of per-cell face-centre sums and face counts
(geometry.rs lines 75-85).  Note the second loop runs over the whole
`neighbor` slice (`neighbor.iter().enumerate()`), not just its first
`n_internal_faces` entries. -/
noncomputable def cellRefAccum (points : List Vector) (faces : List (List ℕ))
    (owner neighbor : List ℕ) : (ℕ → Vector) × (ℕ → ℕ) :=
  let fg := face_geom points faces
  let s1 := (List.range owner.length).foldl
    (fun (st : (ℕ → Vector) × (ℕ → ℕ)) fi =>
      (upd st.1 (getN owner fi) (st.1 (getN owner fi) + (getPair fg fi).1),
       upd st.2 (getN owner fi) (st.2 (getN owner fi) + 1)))
    (fun _ => 0, fun _ => 0)
  (List.range neighbor.length).foldl
    (fun (st : (ℕ → Vector) × (ℕ → ℕ)) fi =>
      (upd st.1 (getN neighbor fi) (st.1 (getN neighbor fi) + (getPair fg fi).1),
       upd st.2 (getN neighbor fi) (st.2 (getN neighbor fi) + 1)))
    s1

/-- Per-cell reference point (geometry.rs lines 86-90): the face-centre
sum divided by the face count when that count is positive. -/
noncomputable def cell_ref (points : List Vector) (faces : List (List ℕ))
    (owner neighbor : List ℕ) : ℕ → Vector :=
  fun ci =>
    if 0 < (cellRefAccum points faces owner neighbor).2 ci then
      (cellRefAccum points faces owner neighbor).1 ci /
        (((cellRefAccum points faces owner neighbor).2 ci : ℕ) : ℝ)
    else (cellRefAccum points faces owner neighbor).1 ci

/-- Pyramid accumulation of `(cell_volumes, cell_centers_weighted)`
(geometry.rs lines 92-112): owner contributions over all faces, then
neighbor contributions over the first `n_internal_faces` faces with the
area vector negated. -/
noncomputable def cellAccum (points : List Vector) (faces : List (List ℕ))
    (owner neighbor : List ℕ) (n_internal_faces : ℕ) : (ℕ → ℝ) × (ℕ → Vector) :=
  let fg := face_geom points faces
  let cr := cell_ref points faces owner neighbor
  let s3 := (List.range owner.length).foldl
    (fun (st : (ℕ → ℝ) × (ℕ → Vector)) fi =>
      let o := getN owner fi
      let fc := (getPair fg fi).1
      let fa := (getPair fg fi).2
      let pyr_vol := fa.dot (fc - cr o) / 3
      let pyr_center := cr o * (0.75 : ℝ) + fc * (0.25 : ℝ)
      (upd st.1 o (st.1 o + pyr_vol), upd st.2 o (st.2 o + pyr_center * pyr_vol)))
    (fun _ => 0, fun _ => 0)
  (List.range n_internal_faces).foldl
    (fun (st : (ℕ → ℝ) × (ℕ → Vector)) fi =>
      let n := getN neighbor fi
      let fc := (getPair fg fi).1
      let fa := (getPair fg fi).2
      let pyr_vol := (-fa).dot (fc - cr n) / 3
      let pyr_center := cr n * (0.75 : ℝ) + fc * (0.25 : ℝ)
      (upd st.1 n (st.1 n + pyr_vol), upd st.2 n (st.2 n + pyr_center * pyr_vol)))
    s3

/-- Embedding of `compute_cell_geometry` (geometry.rs lines 60-124): returns
`(cell_volumes, cell_centers)` of length `n_cells`; the centre of a cell is the
weighted-centre sum divided by its volume unless `|volume| ≤ 1e-30`, in
which case the cell reference point is used (lines 114-121). -/
noncomputable def compute_cell_geometry (points : List Vector) (faces : List (List ℕ))
    (owner neighbor : List ℕ) (n_internal_faces n_cells : ℕ) :
    List ℝ × List Vector :=
  ((List.range n_cells).map (cellAccum points faces owner neighbor n_internal_faces).1,
   (List.range n_cells).map (fun ci =>
     if |(cellAccum points faces owner neighbor n_internal_faces).1 ci| > 1e-30 then
       (cellAccum points faces owner neighbor n_internal_faces).2 ci /
         (cellAccum points faces owner neighbor n_internal_faces).1 ci
     else cell_ref points faces owner neighbor ci))

/-! ## Bounds-checked variants

`Option`-valued versions of the geometry routines: `some` exactly when
every slice index evaluated by the Rust code is in bounds, in which case
the value is that of the total model.  An out-of-range index (a Rust
panic) yields `none`. -/

/-- Checked variant: `compute_face_geometry` reads only `points[idx]` for `idx in face`
(geometry.rs lines 18-19 and 27-28). -/
noncomputable def checked_compute_face_geometry (points : List Vector) (face : List ℕ) :
    Option (Vector × Vector) :=
  if ∀ i ∈ face, i < points.length then some (compute_face_geometry points face)
  else none

/-- Index accesses performed by `compute_cell_geometry`:
points through every face (line 71); `c_ref[o]`, `cell_face_count[o]` and
`face_geom[fi]` for every position `fi` of `owner` (lines 78-81, 96-102);
`c_ref[n]` and `face_geom[fi]` for every position `fi` of the whole
`neighbor` slice (lines 82-85); `neighbor[fi]` for `fi < n_internal_faces`
(lines 105-112). -/
noncomputable def checked_compute_cell_geometry (points : List Vector)
    (faces : List (List ℕ)) (owner neighbor : List ℕ)
    (n_internal_faces n_cells : ℕ) : Option (List ℝ × List Vector) :=
  if (∀ f ∈ faces, ∀ i ∈ f, i < points.length) ∧
      owner.length ≤ faces.length ∧ (∀ o ∈ owner, o < n_cells) ∧
      neighbor.length ≤ faces.length ∧ (∀ n ∈ neighbor, n < n_cells) ∧
      n_internal_faces ≤ neighbor.length then
    some (compute_cell_geometry points faces owner neighbor n_internal_faces n_cells)
  else none

/-! ## `compute_cell_faces` (geometry.rs lines 134-148) -/

/-- Embedding of `compute_cell_faces`: push each face index onto the list of its
owner cell (all faces, ascending), then onto the list of its neighbor cell (internal
faces, ascending). -/
def compute_cell_faces (owner neighbor : List ℕ) (n_internal_faces n_cells : ℕ) :
    List (List ℕ) :=
  let r1 := (List.range owner.length).foldl
    (fun r fi => upd r (getN owner fi) (r (getN owner fi) ++ [fi]))
    (fun _ => [])
  let r2 := (List.range n_internal_faces).foldl
    (fun r fi => upd r (getN neighbor fi) (r (getN neighbor fi) ++ [fi]))
    r1
  (List.range n_cells).map r2

/-! ## `compute_cell_cells` (geometry.rs lines 157-173) -/

/-- Embedding of `compute_cell_cells`: for each internal face push the neighbor onto
the adjacency list of the owner and the owner onto the list of the neighbor.
(`cell_faces` is accepted and ignored, as in the source: the signature is
kept per design.) -/
def compute_cell_cells (cell_faces : List (List ℕ)) (owner neighbor : List ℕ)
    (n_internal_faces n_cells : ℕ) : List (List ℕ) :=
  let _unused := cell_faces
  let r := (List.range n_internal_faces).foldl
    (fun r fi =>
      let o := getN owner fi
      let n := getN neighbor fi
      let r1 := upd r o (r o ++ [n])
      upd r1 n (r1 n ++ [o]))
    (fun _ => [])
  (List.range n_cells).map r

/-! ## `compute_cell_points` (geometry.rs lines 181-197) -/

/-- The `BTreeSet` accumulation for one cell: insert every point index of
every face of the cell (geometry.rs lines 188-193). -/
def collectPts (faces : List (List ℕ)) (cell_face_indices : List ℕ) : Finset ℕ :=
  cell_face_indices.foldl
    (fun pts fi => (getF faces fi).foldl (fun pts2 pi => insert pi pts2) pts)
    ∅

/-- Embedding of `compute_cell_points`: for the first `n_cells` entries of
`cell_faces`, the ascending iteration of the point-index set
(`pts.into_iter().collect()` on a `BTreeSet`). -/
def compute_cell_points (cell_faces faces : List (List ℕ)) (n_cells : ℕ) :
    List (List ℕ) :=
  (cell_faces.take n_cells).map
    (fun cell_face_indices => (collectPts faces cell_face_indices).sort (· ≤ ·))

/-! ## Specification-side face quantities

Named formulas taken from the specification text (§4.1): the fan-triangle
area vector `0.5 · (v_i − ref) × (v_(i+1 mod n) − ref)`, the fan-triangle
centroid `(v_i + v_(i+1) + ref) / 3`, and the area-magnitude-weighted
average of triangle centroids with the *sum of the triangle area
magnitudes* as denominator, as the claim words it. -/

/-- Fan-triangle area vector of triangle `i`, as the specification words it. -/
noncomputable def triAreaVecS (points : List Vector) (face : List ℕ) (i : ℕ) : Vector :=
  ((getV points (getN face i) - face_p_ref points face).cross
    (getV points (getN face ((i + 1) % face.length)) - face_p_ref points face)) * (0.5 : ℝ)

/-- Fan-triangle centroid of triangle `i`, as the specification words it. -/
noncomputable def triCenterS (points : List Vector) (face : List ℕ) (i : ℕ) : Vector :=
  (getV points (getN face i) + getV points (getN face ((i + 1) % face.length)) +
    face_p_ref points face) / (3 : ℝ)

/-- Face centroid as the claim words it: the sum of
`triangle centroid · triangle area magnitude` divided by the *sum of the
triangle area magnitudes*. -/
noncomputable def specFaceCentroid (points : List Vector) (face : List ℕ) : Vector :=
  (((List.range face.length).map
      (fun i => triCenterS points face i * (triAreaVecS points face i).mag)).sum) /
  (((List.range face.length).map (fun i => (triAreaVecS points face i).mag)).sum)

/-- Pyramid signed volume of an owner-side face contribution
(spec §4.2 step 3): `area_vector · (face_centroid − cell_ref) / 3`. -/
noncomputable def pyrVol (points : List Vector) (faces : List (List ℕ))
    (owner neighbor : List ℕ) (f c : ℕ) : ℝ :=
  ((getPair (face_geom points faces) f).2).dot
    ((getPair (face_geom points faces) f).1 - cell_ref points faces owner neighbor c) / 3

/-- Pyramid signed volume of a neighbor-side internal-face contribution
(spec §4.2 step 4): the same formula with the area vector negated. -/
noncomputable def pyrVolN (points : List Vector) (faces : List (List ℕ))
    (owner neighbor : List ℕ) (f c : ℕ) : ℝ :=
  (-(getPair (face_geom points faces) f).2).dot
    ((getPair (face_geom points faces) f).1 - cell_ref points faces owner neighbor c) / 3

/-- Pyramid centroid (spec §4.2): `0.75·cell_ref + 0.25·face_centroid`. -/
noncomputable def pyrCenter (points : List Vector) (faces : List (List ℕ))
    (owner neighbor : List ℕ) (f c : ℕ) : Vector :=
  cell_ref points faces owner neighbor c * (0.75 : ℝ) +
    (getPair (face_geom points faces) f).1 * (0.25 : ℝ)

/-! ## Concrete inputs used to settle claims on explicit data -/

/-- Two degenerate faces (all vertices coincident), used to exhibit the
full-`neighbor` read of `compute_cell_geometry`. -/
noncomputable def degenPoints : List Vector := [⟨0, 0, 0⟩, ⟨6, 0, 0⟩]

/-- The two index triangles, one per point of `degenPoints`. -/
def degenFaces : List (List ℕ) := [[0, 0, 0], [1, 1, 1]]

/-- A planar non-convex quadrilateral: vertex 2 is a reflex vertex, so
one pair of fan triangles is negatively oriented and the magnitude of the
summed area vector differs from the sum of the magnitudes. -/
noncomputable def quadPoints : List Vector := [⟨0, 0, 0⟩, ⟨4, 0, 0⟩, ⟨1, 1, 0⟩, ⟨0, 4, 0⟩]

/-- The quadrilateral face over `quadPoints`. -/
def quadFace : List ℕ := [0, 1, 2, 3]

/-! ## Basic lemmas -/

@[simp] theorem Vector.add_def (a b : Vector) :
    a + b = ⟨a.x + b.x, a.y + b.y, a.z + b.z⟩ := rfl

@[simp] theorem Vector.zero_def : (0 : Vector) = ⟨0, 0, 0⟩ := rfl

@[simp] theorem Vector.x_zero : (0 : Vector).x = 0 := rfl

@[simp] theorem Vector.y_zero : (0 : Vector).y = 0 := rfl

@[simp] theorem Vector.z_zero : (0 : Vector).z = 0 := rfl

@[simp] theorem Vector.sub_def (a b : Vector) :
    a - b = ⟨a.x - b.x, a.y - b.y, a.z - b.z⟩ := rfl

@[simp] theorem Vector.neg_def (a : Vector) : -a = ⟨-a.x, -a.y, -a.z⟩ := rfl

@[simp] theorem Vector.smul_def (a : Vector) (s : ℝ) :
    a * s = ⟨a.x * s, a.y * s, a.z * s⟩ := rfl

@[simp] theorem Vector.divs_def (a : Vector) (s : ℝ) :
    a / s = ⟨a.x / s, a.y / s, a.z / s⟩ := rfl

@[simp] theorem upd_same {α : Type} (f : ℕ → α) (i : ℕ) (v : α) : upd f i v i = v := by
  simp [upd]

theorem upd_other {α : Type} (f : ℕ → α) (i j : ℕ) (v : α) (h : j ≠ i) :
    upd f i v j = f j := by
  simp [upd, h]

/-! ## Generic fold lemmas -/

theorem foldl_add_eq_sum {M : Type} [AddCommMonoid M] {γ : Type} (l : List γ)
    (v : γ → M) (a : M) :
    l.foldl (fun acc k => acc + v k) a = a + (l.map v).sum := by
  induction l generalizing a with
  | nil => simp
  | cons h t ih => simp [List.foldl_cons, ih, add_assoc]

theorem foldl_pair_add {M N : Type} [AddCommMonoid M] [AddCommMonoid N]
    {γ : Type} (l : List γ) (u : γ → M) (w : γ → N) (a : M) (b : N) :
    l.foldl (fun acc k => (acc.1 + u k, acc.2 + w k)) (a, b)
      = (a + (l.map u).sum, b + (l.map w).sum) := by
  induction l generalizing a b with
  | nil => simp
  | cons h t ih =>
    simp only [List.foldl_cons, List.map_cons, List.sum_cons]
    rw [ih]
    simp [add_assoc]

theorem foldl_upd_add {M : Type} [AddCommMonoid M] (l : List ℕ) (key : ℕ → ℕ)
    (v : ℕ → M) (f0 : ℕ → M) (c : ℕ) :
    (l.foldl (fun f fi => upd f (key fi) (f (key fi) + v fi)) f0) c
      = f0 c + ((l.filter (fun fi => key fi = c)).map v).sum := by
  induction l generalizing f0 with
  | nil => simp
  | cons a t ih =>
    simp only [List.foldl_cons, List.filter_cons]
    rw [ih]
    by_cases h : key a = c
    · subst h
      simp [upd, add_assoc]
    · simp [upd_other _ _ _ _ (fun hc => h hc.symm), h]

theorem foldl_scatter_pair_add {M N : Type} [AddCommMonoid M] [AddCommMonoid N]
    (l : List ℕ) (key : ℕ → ℕ) (v : ℕ → M) (w : ℕ → N) (f0 : ℕ → M) (g0 : ℕ → N) :
    l.foldl
        (fun st fi =>
          (upd st.1 (key fi) (st.1 (key fi) + v fi),
           upd st.2 (key fi) (st.2 (key fi) + w fi)))
        (f0, g0)
      = (l.foldl (fun f fi => upd f (key fi) (f (key fi) + v fi)) f0,
         l.foldl (fun g fi => upd g (key fi) (g (key fi) + w fi)) g0) := by
  induction l generalizing f0 g0 with
  | nil => rfl
  | cons a t ih =>
    simp only [List.foldl_cons]
    exact ih _ _

theorem foldl_push (l : List ℕ) (key : ℕ → ℕ) (f0 : ℕ → List ℕ) (c : ℕ) :
    (l.foldl (fun f fi => upd f (key fi) (f (key fi) ++ [fi])) f0) c
      = f0 c ++ l.filter (fun fi => key fi = c) := by
  induction l generalizing f0 with
  | nil => simp
  | cons a t ih =>
    simp only [List.foldl_cons, List.filter_cons]
    rw [ih]
    by_cases h : key a = c
    · subst h
      simp [upd, List.append_assoc]
    · simp [upd_other _ _ _ _ (fun hc => h hc.symm), h]

theorem sum_map_one {γ : Type} (l : List γ) : (l.map (fun _ => (1 : ℕ))).sum = l.length := by
  induction l with
  | nil => rfl
  | cons a t ih => simp [ih, Nat.add_comm]

theorem getD_map_range {α : Type} (f : ℕ → α) (n c : ℕ) (d : α) (h : c < n) :
    ((List.range n).map f).getD c d = f c := by
  rw [List.getD_eq_getElem?_getD, List.getElem?_map, List.getElem?_range h]
  rfl

/-! ## Characterizations of the accumulation loops -/

/-- The fan loop accumulates exactly the sum of the fan-triangle area
vectors and the sum of the area-magnitude-weighted triangle centroids. -/
theorem faceFan_eq (points : List Vector) (face : List ℕ) :
    faceFan points face
      = (((List.range face.length).map (fun i => triAreaVecS points face i)).sum,
         ((List.range face.length).map
           (fun i => triCenterS points face i * (triAreaVecS points face i).mag)).sum) := by
  simp only [faceFan]
  rw [foldl_pair_add]
  simp [triAreaVecS, triCenterS]

/-- The reference-point accumulator: face-centre sums per cell. -/
theorem cellRefAccum_fst (points : List Vector) (faces : List (List ℕ))
    (owner neighbor : List ℕ) (c : ℕ) :
    (cellRefAccum points faces owner neighbor).1 c
      = (((List.range owner.length).filter (fun fi => getN owner fi = c)).map
          (fun fi => (getPair (face_geom points faces) fi).1)).sum
        + (((List.range neighbor.length).filter (fun fi => getN neighbor fi = c)).map
          (fun fi => (getPair (face_geom points faces) fi).1)).sum := by
  simp only [cellRefAccum]
  rw [foldl_scatter_pair_add, foldl_scatter_pair_add]
  dsimp only
  rw [foldl_upd_add, foldl_upd_add]
  simp

/-- The reference-point accumulator: face counts per cell.  The count of
cell `c` is the number of owner entries equal to `c` plus the number of
entries equal to `c` anywhere in `neighbor`. -/
theorem cellRefAccum_snd (points : List Vector) (faces : List (List ℕ))
    (owner neighbor : List ℕ) (c : ℕ) :
    (cellRefAccum points faces owner neighbor).2 c
      = ((List.range owner.length).filter (fun fi => getN owner fi = c)).length
        + ((List.range neighbor.length).filter (fun fi => getN neighbor fi = c)).length := by
  simp only [cellRefAccum]
  rw [foldl_scatter_pair_add, foldl_scatter_pair_add]
  dsimp only
  rw [foldl_upd_add, foldl_upd_add]
  simp [sum_map_one]

/-- The pyramid accumulator: per-cell signed volume sums. -/
theorem cellAccum_fst (points : List Vector) (faces : List (List ℕ))
    (owner neighbor : List ℕ) (n_internal_faces : ℕ) (c : ℕ) :
    (cellAccum points faces owner neighbor n_internal_faces).1 c
      = (((List.range owner.length).filter (fun fi => getN owner fi = c)).map
          (fun f => pyrVol points faces owner neighbor f c)).sum
        + (((List.range n_internal_faces).filter (fun fi => getN neighbor fi = c)).map
          (fun f => pyrVolN points faces owner neighbor f c)).sum := by
  simp only [cellAccum]
  rw [foldl_scatter_pair_add, foldl_scatter_pair_add]
  dsimp only
  rw [foldl_upd_add, foldl_upd_add]
  simp only [zero_add]
  congr 1
  · refine congrArg List.sum (List.map_congr_left ?_)
    intro f hf
    simp only [List.mem_filter, List.mem_range, decide_eq_true_eq] at hf
    simp only [pyrVol]
    rw [hf.2]
  · refine congrArg List.sum (List.map_congr_left ?_)
    intro f hf
    simp only [List.mem_filter, List.mem_range, decide_eq_true_eq] at hf
    simp only [pyrVolN]
    rw [hf.2]

/-- The pyramid accumulator: per-cell volume-weighted centroid sums. -/
theorem cellAccum_snd (points : List Vector) (faces : List (List ℕ))
    (owner neighbor : List ℕ) (n_internal_faces : ℕ) (c : ℕ) :
    (cellAccum points faces owner neighbor n_internal_faces).2 c
      = (((List.range owner.length).filter (fun fi => getN owner fi = c)).map
          (fun f => pyrCenter points faces owner neighbor f c *
            pyrVol points faces owner neighbor f c)).sum
        + (((List.range n_internal_faces).filter (fun fi => getN neighbor fi = c)).map
          (fun f => pyrCenter points faces owner neighbor f c *
            pyrVolN points faces owner neighbor f c)).sum := by
  simp only [cellAccum]
  rw [foldl_scatter_pair_add, foldl_scatter_pair_add]
  dsimp only
  rw [foldl_upd_add, foldl_upd_add]
  simp only [zero_add]
  congr 1
  · refine congrArg List.sum (List.map_congr_left ?_)
    intro f hf
    simp only [List.mem_filter, List.mem_range, decide_eq_true_eq] at hf
    simp only [pyrVol, pyrCenter]
    rw [hf.2]
  · refine congrArg List.sum (List.map_congr_left ?_)
    intro f hf
    simp only [List.mem_filter, List.mem_range, decide_eq_true_eq] at hf
    simp only [pyrVolN, pyrCenter]
    rw [hf.2]

/-- The face list of cell `c`: owner contributions in ascending face
order, then neighbor contributions in ascending internal-face order. -/
theorem cell_faces_at (owner neighbor : List ℕ) (n_internal_faces n_cells c : ℕ)
    (hc : c < n_cells) :
    getF (compute_cell_faces owner neighbor n_internal_faces n_cells) c
      = (List.range owner.length).filter (fun fi => getN owner fi = c)
        ++ (List.range n_internal_faces).filter (fun fi => getN neighbor fi = c) := by
  simp only [compute_cell_faces, getF]
  rw [getD_map_range _ _ _ _ hc]
  rw [foldl_push, foldl_push]
  simp

/-- Occurrence count of `B` in the adjacency list of cell `A` after the
`compute_cell_cells` accumulation loop, for distinct `A`, `B`. -/
theorem cellcells_fold_count (owner neighbor : List ℕ) (l : List ℕ)
    (f0 : ℕ → List ℕ) (A B : ℕ) (hAB : A ≠ B) :
    ((l.foldl (fun r fi =>
        upd (upd r (getN owner fi) (r (getN owner fi) ++ [getN neighbor fi]))
          (getN neighbor fi)
          ((upd r (getN owner fi) (r (getN owner fi) ++ [getN neighbor fi]))
              (getN neighbor fi) ++ [getN owner fi])) f0) A).count B
      = ((f0 A).count B) + (l.filter (fun fi =>
          (getN owner fi = A ∧ getN neighbor fi = B) ∨
          (getN owner fi = B ∧ getN neighbor fi = A))).length := by
  induction l generalizing f0 with
  | nil => simp
  | cons a t ih =>
    simp only [List.foldl_cons, List.filter_cons]
    rw [ih]
    have key : ((upd (upd f0 (getN owner a) (f0 (getN owner a) ++ [getN neighbor a]))
        (getN neighbor a)
        ((upd f0 (getN owner a) (f0 (getN owner a) ++ [getN neighbor a]))
            (getN neighbor a) ++ [getN owner a])) A).count B
        = ((f0 A).count B) + (if (getN owner a = A ∧ getN neighbor a = B) ∨
            (getN owner a = B ∧ getN neighbor a = A) then 1 else 0) := by
      by_cases hn : getN neighbor a = A
      · by_cases ho : getN owner a = A
        · simp [upd, List.count_append, List.count_cons, List.count_nil,
            hn, ho, hAB, Ne.symm hAB]
        · by_cases hoB : getN owner a = B
          · simp [upd, List.count_append, List.count_cons, List.count_nil,
              hn, ho, hoB, hAB, Ne.symm hAB, Ne.symm ho]
          · simp [upd, List.count_append, List.count_cons, List.count_nil,
              hn, ho, hoB, hAB, Ne.symm hAB, Ne.symm ho,
              show ¬(B = getN owner a) from fun h => hoB h.symm]
      · by_cases ho : getN owner a = A
        · by_cases hnB : getN neighbor a = B
          · simp [upd, List.count_append, List.count_cons, List.count_nil,
              hn, ho, hnB, hAB, Ne.symm hAB, Ne.symm hn]
          · simp [upd, List.count_append, List.count_cons, List.count_nil,
              hn, ho, hnB, hAB, Ne.symm hAB, Ne.symm hn,
              show ¬(B = getN neighbor a) from fun h => hnB h.symm]
        · simp [upd, hn, ho, Ne.symm hn, Ne.symm ho]
    rw [key]
    by_cases hp : (getN owner a = A ∧ getN neighbor a = B) ∨
        (getN owner a = B ∧ getN neighbor a = A)
    · simp only [hp, if_true, if_pos]
      simp [List.length_cons]
      omega
    · simp [hp]

theorem mem_foldl_insert (l : List ℕ) (s : Finset ℕ) (x : ℕ) :
    x ∈ l.foldl (fun s2 pi => insert pi s2) s ↔ x ∈ s ∨ x ∈ l := by
  induction l generalizing s with
  | nil => simp
  | cons a t ih =>
    simp only [List.foldl_cons, ih, Finset.mem_insert, List.mem_cons]
    tauto

theorem mem_collect_aux (faces : List (List ℕ)) (cfi : List ℕ) (s : Finset ℕ) (x : ℕ) :
    x ∈ cfi.foldl
        (fun pts fi => (getF faces fi).foldl (fun pts2 pi => insert pi pts2) pts) s
      ↔ x ∈ s ∨ ∃ fi ∈ cfi, x ∈ getF faces fi := by
  induction cfi generalizing s with
  | nil => simp
  | cons a t ih =>
    simp only [List.foldl_cons, ih, mem_foldl_insert, List.mem_cons]
    constructor
    · rintro ((hs | hface) | ⟨fi, hfi, hx⟩)
      · exact Or.inl hs
      · exact Or.inr ⟨a, Or.inl rfl, hface⟩
      · exact Or.inr ⟨fi, Or.inr hfi, hx⟩
    · rintro (hs | ⟨fi, (rfl | hfi), hx⟩)
      · exact Or.inl (Or.inl hs)
      · exact Or.inl (Or.inr hx)
      · exact Or.inr ⟨fi, hfi, hx⟩

/-- Membership in the per-cell `BTreeSet` accumulation. -/
theorem mem_collectPts (faces : List (List ℕ)) (cfi : List ℕ) (x : ℕ) :
    x ∈ collectPts faces cfi ↔ ∃ fi ∈ cfi, x ∈ getF faces fi := by
  simp [collectPts, mem_collect_aux]

/-- An in-range `getN` read returns a member of the list. -/
theorem getN_mem (l : List ℕ) (fi : ℕ) (hfi : fi < l.length) : getN l fi ∈ l := by
  rw [getN, List.getD_eq_getElem _ _ hfi]
  exact List.getElem_mem _

/-! ## Claims -/

/-- Claim C4: for every face with valid point indices,
`compute_face_geometry` takes the reference point to be the arithmetic
mean of the vertex coordinates of the face, accumulates the fan-triangle area
vectors `0.5 · (v_i − ref) × (v_(i+1 mod n) − ref)`, and, whenever the
magnitude of the summed area vector is `≤ 1e-30`, returns exactly the
reference point as the centroid and the computed sum as the area vector. -/
theorem C4_face_ref_mean_and_degenerate_fallback (points : List Vector) (face : List ℕ)
    (hvalid : ∀ i ∈ face, i < points.length) :
    face_p_ref points face
        = ((face.map (fun idx => getV points idx)).sum) / (face.length : ℝ)
    ∧ (faceFan points face).1
        = ((List.range face.length).map (fun i => triAreaVecS points face i)).sum
    ∧ ((faceFan points face).1.mag ≤ 1e-30 →
        (compute_face_geometry points face).1 = face_p_ref points face
        ∧ (compute_face_geometry points face).2 = (faceFan points face).1) := by
  refine ⟨?_, ?_, ?_⟩
  · simp only [face_p_ref]
    rw [foldl_add_eq_sum]
    simp
  · rw [faceFan_eq]
  · intro hdeg
    simp only [compute_face_geometry]
    rw [if_neg (not_lt.mpr hdeg)]
    exact ⟨rfl, trivial⟩

/-- Claim C3 (amended): for every face with valid point indices whose
total area-vector magnitude exceeds `1e-30`, the centroid returned by
`compute_face_geometry` is the sum of `triangle centroid · triangle area
magnitude` divided by the *magnitude of the summed area vector* (not by
the sum of the triangle area magnitudes). -/
theorem C3_centroid_weighted_by_total_mag (points : List Vector) (face : List ℕ)
    (hvalid : ∀ i ∈ face, i < points.length)
    (hpos : ((((List.range face.length).map
        (fun i => triAreaVecS points face i)).sum).mag) > 1e-30) :
    (compute_face_geometry points face).1
      = (((List.range face.length).map
            (fun i => triCenterS points face i * (triAreaVecS points face i).mag)).sum) /
        ((((List.range face.length).map (fun i => triAreaVecS points face i)).sum).mag) := by
  simp only [compute_face_geometry]
  rw [faceFan_eq]
  dsimp only
  rw [if_pos hpos]

/-- Claim C5: `compute_cell_geometry` accumulates the volume of each cell as
the sum of owner-side pyramid volumes over the faces owned by the cell,
in ascending face order, plus the sum of negated-area pyramid volumes
over the internal faces whose neighbor is the cell, in ascending order;
and the accumulated centroid is the corresponding sum of
`(0.75·cell_ref + 0.25·face_centroid) · pyramid volume` terms. -/
theorem C5_pyramidal_accumulation (points : List Vector) (faces : List (List ℕ))
    (owner neighbor : List ℕ) (n_internal_faces n_cells c : ℕ)
    (hc : c < n_cells) (hlen : owner.length = faces.length)
    (hnif : n_internal_faces ≤ neighbor.length)
    (howner : ∀ o ∈ owner, o < n_cells)
    (hneigh : ∀ fi < n_internal_faces, getN neighbor fi < n_cells) :
    getR (compute_cell_geometry points faces owner neighbor n_internal_faces n_cells).1 c
      = (((List.range owner.length).filter (fun f => getN owner f = c)).map
          (fun f => pyrVol points faces owner neighbor f c)).sum
        + (((List.range n_internal_faces).filter (fun f => getN neighbor f = c)).map
          (fun f => pyrVolN points faces owner neighbor f c)).sum
    ∧ (cellAccum points faces owner neighbor n_internal_faces).2 c
      = (((List.range owner.length).filter (fun f => getN owner f = c)).map
          (fun f => pyrCenter points faces owner neighbor f c *
            pyrVol points faces owner neighbor f c)).sum
        + (((List.range n_internal_faces).filter (fun f => getN neighbor f = c)).map
          (fun f => pyrCenter points faces owner neighbor f c *
            pyrVolN points faces owner neighbor f c)).sum := by
  constructor
  · simp only [compute_cell_geometry, getR]
    rw [getD_map_range _ _ _ _ hc]
    exact cellAccum_fst points faces owner neighbor n_internal_faces c
  · exact cellAccum_snd points faces owner neighbor n_internal_faces c

/-- Claim C6: for every cell whose accumulated signed volume has absolute
value `≤ 1e-30`, `compute_cell_geometry` returns the cell reference point
as the centroid of that cell, and the reported volume is exactly the
accumulated sum, not clamped or replaced. -/
theorem C6_degenerate_cell_fallback (points : List Vector) (faces : List (List ℕ))
    (owner neighbor : List ℕ) (n_internal_faces n_cells c : ℕ)
    (hc : c < n_cells)
    (hdeg : |(cellAccum points faces owner neighbor n_internal_faces).1 c| ≤ 1e-30) :
    getV (compute_cell_geometry points faces owner neighbor n_internal_faces n_cells).2 c
      = cell_ref points faces owner neighbor c
    ∧ getR (compute_cell_geometry points faces owner neighbor n_internal_faces n_cells).1 c
      = (cellAccum points faces owner neighbor n_internal_faces).1 c := by
  constructor
  · simp only [compute_cell_geometry, getV]
    rw [getD_map_range _ _ _ _ hc]
    rw [if_neg (not_lt.mpr hdeg)]
  · simp only [compute_cell_geometry, getR]
    rw [getD_map_range _ _ _ _ hc]

/-- Claim C7: the face list produced by `compute_cell_faces` for a cell
`c < n_cells` is exactly the ascending list of faces owned by `c`
followed by the ascending list of internal faces whose neighbor is `c`;
owner contributions precede neighbor contributions. -/
theorem C7_cell_faces_owner_before_neighbor (owner neighbor : List ℕ)
    (n_internal_faces n_cells c : ℕ) (hc : c < n_cells)
    (howner : ∀ o ∈ owner, o < n_cells)
    (hnif : n_internal_faces ≤ neighbor.length)
    (hneigh : ∀ fi < n_internal_faces, getN neighbor fi < n_cells) :
    getF (compute_cell_faces owner neighbor n_internal_faces n_cells) c
      = (List.range owner.length).filter (fun fi => getN owner fi = c)
        ++ (List.range n_internal_faces).filter (fun fi => getN neighbor fi = c) :=
  cell_faces_at owner neighbor n_internal_faces n_cells c hc

/-- Claim C8: `compute_cell_cells` adjacency is symmetric per internal
face: for distinct cells `A`, `B` below `n_cells`, the number of
occurrences of `B` in the list of `A` equals the number of occurrences of `A`
in the list of `B`, and both equal the number of internal faces joining `A`
and `B`. -/
theorem C8_cell_cells_symmetric (cell_faces : List (List ℕ)) (owner neighbor : List ℕ)
    (n_internal_faces n_cells A B : ℕ)
    (hA : A < n_cells) (hB : B < n_cells) (hAB : A ≠ B)
    (hnifo : n_internal_faces ≤ owner.length)
    (hnifn : n_internal_faces ≤ neighbor.length)
    (howner : ∀ fi < n_internal_faces, getN owner fi < n_cells)
    (hneigh : ∀ fi < n_internal_faces, getN neighbor fi < n_cells) :
    ((getF (compute_cell_cells cell_faces owner neighbor n_internal_faces n_cells) A).count B
      = (getF (compute_cell_cells cell_faces owner neighbor n_internal_faces n_cells) B).count A)
    ∧ ((getF (compute_cell_cells cell_faces owner neighbor n_internal_faces n_cells) A).count B
      = ((List.range n_internal_faces).filter (fun fi =>
          (getN owner fi = A ∧ getN neighbor fi = B) ∨
          (getN owner fi = B ∧ getN neighbor fi = A))).length) := by
  have hA2 : ((getF (compute_cell_cells cell_faces owner neighbor n_internal_faces n_cells)
      A).count B)
      = ((List.range n_internal_faces).filter (fun fi =>
          (getN owner fi = A ∧ getN neighbor fi = B) ∨
          (getN owner fi = B ∧ getN neighbor fi = A))).length := by
    simp only [compute_cell_cells, getF]
    rw [getD_map_range _ _ _ _ hA]
    rw [cellcells_fold_count owner neighbor _ _ A B hAB]
    simp
  have hB2 : ((getF (compute_cell_cells cell_faces owner neighbor n_internal_faces n_cells)
      B).count A)
      = ((List.range n_internal_faces).filter (fun fi =>
          (getN owner fi = B ∧ getN neighbor fi = A) ∨
          (getN owner fi = A ∧ getN neighbor fi = B))).length := by
    simp only [compute_cell_cells, getF]
    rw [getD_map_range _ _ _ _ hB]
    rw [cellcells_fold_count owner neighbor _ _ B A (Ne.symm hAB)]
    simp
  have hfil : ((List.range n_internal_faces).filter (fun fi =>
        (getN owner fi = B ∧ getN neighbor fi = A) ∨
        (getN owner fi = A ∧ getN neighbor fi = B)))
      = ((List.range n_internal_faces).filter (fun fi =>
        (getN owner fi = A ∧ getN neighbor fi = B) ∨
        (getN owner fi = B ∧ getN neighbor fi = A))) := by
    apply List.filter_congr
    intro fi _
    exact decide_eq_decide.mpr or_comm
  refine ⟨?_, hA2⟩
  rw [hA2, hB2, hfil]

/-- Claim C9: for every cell `c < n_cells` with a valid face list, the
list produced by `compute_cell_points` is strictly ascending (hence
duplicate-free) and its elements are exactly the union of the point
indices of the faces listed in `cell_faces[c]`. -/
theorem C9_cell_points_sorted_union (cell_faces faces : List (List ℕ))
    (n_cells c : ℕ) (hc : c < n_cells) (hcf : c < cell_faces.length)
    (hvalid : ∀ fi ∈ getF cell_faces c, fi < faces.length) :
    List.Sorted (· < ·) (getF (compute_cell_points cell_faces faces n_cells) c)
    ∧ ∀ p : ℕ, (p ∈ getF (compute_cell_points cell_faces faces n_cells) c ↔
        ∃ fi ∈ getF cell_faces c, p ∈ getF faces fi) := by
  have hres : getF (compute_cell_points cell_faces faces n_cells) c
      = (collectPts faces (getF cell_faces c)).sort (· ≤ ·) := by
    simp only [compute_cell_points, getF]
    rw [List.getD_eq_getElem?_getD, List.getElem?_map, List.getElem?_take_of_lt hc,
      List.getElem?_eq_getElem hcf]
    simp [List.getD_eq_getElem?_getD, List.getElem?_eq_getElem hcf]
  rw [hres]
  constructor
  · exact Finset.sort_sorted_lt _
  · intro p
    rw [Finset.mem_sort]
    exact mem_collectPts faces (getF cell_faces c) p

/-- Claim C10: a cell index `c < n_cells` bounded by no face (appearing
in neither `owner` nor the portion of `neighbor` the code reads — the
reference-point loop reads the whole `neighbor` slice) gets volume
exactly `0` and centroid exactly the zero vector from
`compute_cell_geometry`: the reference-point division is guarded by a
positive face count and the centroid division by the `1e-30` threshold. -/
theorem C10_empty_cell_zero_volume_and_centroid (points : List Vector)
    (faces : List (List ℕ)) (owner neighbor : List ℕ)
    (n_internal_faces n_cells c : ℕ) (hc : c < n_cells)
    (hnif : n_internal_faces ≤ neighbor.length)
    (ho : c ∉ owner) (hn : c ∉ neighbor) :
    getR (compute_cell_geometry points faces owner neighbor n_internal_faces n_cells).1 c
      = 0
    ∧ getV (compute_cell_geometry points faces owner neighbor n_internal_faces n_cells).2 c
      = Vector.zero := by
  have hfo : ((List.range owner.length).filter (fun fi => getN owner fi = c)) = [] := by
    rw [List.filter_eq_nil_iff]
    intro fi hfi
    simp only [List.mem_range] at hfi
    simp only [decide_eq_true_eq]
    intro heq
    exact ho (heq ▸ getN_mem owner fi hfi)
  have hfn : ((List.range neighbor.length).filter (fun fi => getN neighbor fi = c)) = [] := by
    rw [List.filter_eq_nil_iff]
    intro fi hfi
    simp only [List.mem_range] at hfi
    simp only [decide_eq_true_eq]
    intro heq
    exact hn (heq ▸ getN_mem neighbor fi hfi)
  have hfn2 : ((List.range n_internal_faces).filter (fun fi => getN neighbor fi = c)) = [] := by
    rw [List.filter_eq_nil_iff]
    intro fi hfi
    simp only [List.mem_range] at hfi
    simp only [decide_eq_true_eq]
    intro heq
    have hlt : fi < neighbor.length := lt_of_lt_of_le hfi hnif
    exact hn (heq ▸ getN_mem neighbor fi hlt)
  have hvol : (cellAccum points faces owner neighbor n_internal_faces).1 c = 0 := by
    rw [cellAccum_fst, hfo, hfn2]
    simp
  have hcount : (cellRefAccum points faces owner neighbor).2 c = 0 := by
    rw [cellRefAccum_snd, hfo, hfn]
    simp
  have hsum : (cellRefAccum points faces owner neighbor).1 c = 0 := by
    rw [cellRefAccum_fst, hfo, hfn]
    simp
  have hcr : cell_ref points faces owner neighbor c = Vector.zero := by
    simp only [cell_ref]
    rw [hcount, hsum]
    simp [Vector.zero]
  constructor
  · simp only [compute_cell_geometry, getR]
    rw [getD_map_range _ _ _ _ hc]
    exact hvol
  · simp only [compute_cell_geometry, getV]
    rw [getD_map_range _ _ _ _ hc]
    rw [hvol]
    rw [if_neg (by norm_num)]
    exact hcr

/-! ## Concrete evaluations -/

theorem mag_z_axis (z : ℝ) : Vector.mag ⟨0, 0, z⟩ = |z| := by
  show Real.sqrt (0 * 0 + 0 * 0 + z * z) = |z|
  rw [show (0 * 0 + 0 * 0 + z * z : ℝ) = z ^ 2 by ring, Real.sqrt_sq_eq_abs]

theorem degen_face0_eval :
    compute_face_geometry degenPoints [0, 0, 0] = (⟨0, 0, 0⟩, ⟨0, 0, 0⟩) := by
  have hpref : face_p_ref degenPoints [0, 0, 0] = ⟨0, 0, 0⟩ := by
    norm_num [face_p_ref, degenPoints, getV, Vector.mk.injEq]
  have hr : List.range ([0, 0, 0] : List ℕ).length = [0, 1, 2] := rfl
  have hfan : faceFan degenPoints [0, 0, 0] = (⟨0, 0, 0⟩, ⟨0, 0, 0⟩) := by
    rw [faceFan_eq, hr]
    simp only [triAreaVecS, triCenterS]
    rw [hpref]
    norm_num [getN, getV, degenPoints, Vector.cross,
      Vector.mag, Vector.mk.injEq, Real.sqrt_zero, Prod.ext_iff]
  have hC : ¬ ((⟨0, 0, 0⟩ : Vector).mag > 1e-30) := by
    norm_num [Vector.mag, Real.sqrt_zero]
  simp [compute_face_geometry, hfan, hpref, hC]

theorem degen_face1_eval :
    compute_face_geometry degenPoints [1, 1, 1] = (⟨6, 0, 0⟩, ⟨0, 0, 0⟩) := by
  have hpref : face_p_ref degenPoints [1, 1, 1] = ⟨6, 0, 0⟩ := by
    norm_num [face_p_ref, degenPoints, getV, Vector.mk.injEq]
  have hr : List.range ([1, 1, 1] : List ℕ).length = [0, 1, 2] := rfl
  have hfan : faceFan degenPoints [1, 1, 1] = (⟨0, 0, 0⟩, ⟨0, 0, 0⟩) := by
    rw [faceFan_eq, hr]
    simp only [triAreaVecS, triCenterS]
    rw [hpref]
    norm_num [getN, getV, degenPoints, Vector.cross,
      Vector.mag, Vector.mk.injEq, Real.sqrt_zero, Prod.ext_iff]
  have hC : ¬ ((⟨0, 0, 0⟩ : Vector).mag > 1e-30) := by
    norm_num [Vector.mag, Real.sqrt_zero]
  simp [compute_face_geometry, hfan, hpref, hC]

theorem degen_face_geom_eval :
    face_geom degenPoints degenFaces
      = [(⟨0, 0, 0⟩, ⟨0, 0, 0⟩), (⟨6, 0, 0⟩, ⟨0, 0, 0⟩)] := by
  simp [face_geom, degenFaces, degen_face0_eval, degen_face1_eval]

theorem degen_cellgeom_empty_eval :
    compute_cell_geometry degenPoints degenFaces [0, 0] [] 0 1 = ([0], [⟨3, 0, 0⟩]) := by
  have hfo : (List.range ([0, 0] : List ℕ).length).filter (fun fi => getN [0, 0] fi = 0)
      = [0, 1] := by decide
  have hfn : (List.range ([] : List ℕ).length).filter (fun fi => getN [] fi = 0)
      = [] := by decide
  have hcount : (cellRefAccum degenPoints degenFaces [0, 0] []).2 0 = 2 := by
    rw [cellRefAccum_snd, hfo, hfn]
    rfl
  have hsum : (cellRefAccum degenPoints degenFaces [0, 0] []).1 0 = ⟨6, 0, 0⟩ := by
    rw [cellRefAccum_fst, hfo, hfn, degen_face_geom_eval]
    norm_num [getPair, Vector.mk.injEq]
  have hcr : cell_ref degenPoints degenFaces [0, 0] [] 0 = ⟨3, 0, 0⟩ := by
    simp only [cell_ref]
    rw [hcount, hsum]
    norm_num [Vector.mk.injEq]
  have hfn0 : (List.range (0 : ℕ)).filter (fun fi => getN [] fi = 0) = [] := by decide
  have hvol : (cellAccum degenPoints degenFaces [0, 0] [] 0).1 0 = 0 := by
    rw [cellAccum_fst, hfo, hfn0]
    norm_num [pyrVol, degen_face_geom_eval, getPair, Vector.dot]
  simp only [compute_cell_geometry]
  rw [show List.range 1 = [0] from rfl]
  simp only [List.map_cons, List.map_nil]
  rw [hvol, hcr]
  norm_num

theorem degen_cellgeom_extra_eval :
    compute_cell_geometry degenPoints degenFaces [0, 0] [0] 0 1 = ([0], [⟨2, 0, 0⟩]) := by
  have hfo : (List.range ([0, 0] : List ℕ).length).filter (fun fi => getN [0, 0] fi = 0)
      = [0, 1] := by decide
  have hfn : (List.range ([0] : List ℕ).length).filter (fun fi => getN [0] fi = 0)
      = [0] := by decide
  have hcount : (cellRefAccum degenPoints degenFaces [0, 0] [0]).2 0 = 3 := by
    rw [cellRefAccum_snd, hfo, hfn]
    rfl
  have hsum : (cellRefAccum degenPoints degenFaces [0, 0] [0]).1 0 = ⟨6, 0, 0⟩ := by
    rw [cellRefAccum_fst, hfo, hfn, degen_face_geom_eval]
    norm_num [getPair, Vector.mk.injEq]
  have hcr : cell_ref degenPoints degenFaces [0, 0] [0] 0 = ⟨2, 0, 0⟩ := by
    simp only [cell_ref]
    rw [hcount, hsum]
    norm_num [Vector.mk.injEq]
  have hfn0 : (List.range (0 : ℕ)).filter (fun fi => getN [0] fi = 0) = [] := by decide
  have hvol : (cellAccum degenPoints degenFaces [0, 0] [0] 0).1 0 = 0 := by
    rw [cellAccum_fst, hfo, hfn0]
    norm_num [pyrVol, degen_face_geom_eval, getPair, Vector.dot]
  simp only [compute_cell_geometry]
  rw [show List.range 1 = [0] from rfl]
  simp only [List.map_cons, List.map_nil]
  rw [hvol, hcr]
  norm_num

/-- Claim C1: reading only the first `n_internal_faces` entries of
`neighbor` is violated by `compute_cell_geometry`.  Two inputs that agree
on `points`, `faces`, `owner`, `n_internal_faces = 0` and `n_cells`, and
whose `neighbor` arrays agree on the (empty) read prefix, produce
different outputs: the reference-point loop at geometry.rs line 82 reads
the whole `neighbor` slice. -/
theorem C1_full_neighbor_read_changes_output :
    List.take 0 ([] : List ℕ) = List.take 0 ([0] : List ℕ)
    ∧ compute_cell_geometry degenPoints degenFaces [0, 0] [] 0 1
        ≠ compute_cell_geometry degenPoints degenFaces [0, 0] [0] 0 1 := by
  refine ⟨rfl, ?_⟩
  rw [degen_cellgeom_empty_eval, degen_cellgeom_extra_eval]
  intro h
  norm_num [Prod.ext_iff, Vector.mk.injEq] at h

/-- Claim C2: the section-3 invariants do not prevent out-of-bounds
accesses in `compute_cell_geometry`.  The input below satisfies every
invariant (`owner.len == faces.len`; `n_internal_faces ≤ faces.len` and
`≤ neighbor.len`; every owner entry `< n_cells`; every neighbor entry
below `n_internal_faces` `< n_cells`; all point indices valid), yet the
bounds-checked evaluation reads `face_geom[0]` and `c_ref[5]` out of
bounds and returns `none`. -/
theorem C2_validated_input_reads_out_of_bounds :
    (([] : List ℕ).length = ([] : List (List ℕ)).length
      ∧ 0 ≤ ([] : List (List ℕ)).length ∧ 0 ≤ ([5] : List ℕ).length
      ∧ (∀ o ∈ ([] : List ℕ), o < 1)
      ∧ (∀ fi < 0, getN [5] fi < 1)
      ∧ (∀ f ∈ ([] : List (List ℕ)), ∀ i ∈ f, i < ([] : List Vector).length))
    ∧ checked_compute_cell_geometry [] [] [] [5] 0 1 = none := by
  constructor
  · refine ⟨rfl, Nat.zero_le _, Nat.zero_le _, ?_, ?_, ?_⟩
    · intro o ho
      exact absurd ho (List.not_mem_nil o)
    · intro fi hfi
      exact absurd hfi (Nat.not_lt_zero fi)
    · intro f hf
      exact absurd hf (List.not_mem_nil f)
  · simp only [checked_compute_cell_geometry]
    rw [if_neg]
    intro hcond
    have h5 : (5 : ℕ) < 1 := hcond.2.2.2.2.1 5 (by simp)
    exact absurd h5 (by norm_num)

theorem quad_pref_eval : face_p_ref quadPoints quadFace = ⟨5 / 4, 5 / 4, 0⟩ := by
  norm_num [face_p_ref, quadPoints, quadFace, getV, Vector.mk.injEq]

theorem quad_range_eval : List.range quadFace.length = [0, 1, 2, 3] := rfl

theorem quad_tri0_area : triAreaVecS quadPoints quadFace 0 = ⟨0, 0, 5 / 2⟩ := by
  simp only [triAreaVecS]
  rw [quad_pref_eval]
  norm_num [getN, getV, quadPoints, quadFace, Vector.cross, Vector.mk.injEq]

theorem quad_tri1_area : triAreaVecS quadPoints quadFace 1 = ⟨0, 0, -(1 / 2)⟩ := by
  simp only [triAreaVecS]
  rw [quad_pref_eval]
  norm_num [getN, getV, quadPoints, quadFace, Vector.cross, Vector.mk.injEq]

theorem quad_tri2_area : triAreaVecS quadPoints quadFace 2 = ⟨0, 0, -(1 / 2)⟩ := by
  simp only [triAreaVecS]
  rw [quad_pref_eval]
  norm_num [getN, getV, quadPoints, quadFace, Vector.cross, Vector.mk.injEq]

theorem quad_tri3_area : triAreaVecS quadPoints quadFace 3 = ⟨0, 0, 5 / 2⟩ := by
  simp only [triAreaVecS]
  rw [quad_pref_eval]
  norm_num [getN, getV, quadPoints, quadFace, Vector.cross, Vector.mk.injEq]

theorem quad_tri0_center : triCenterS quadPoints quadFace 0 = ⟨7 / 4, 5 / 12, 0⟩ := by
  simp only [triCenterS]
  rw [quad_pref_eval]
  norm_num [getN, getV, quadPoints, quadFace, Vector.mk.injEq]

theorem quad_tri1_center : triCenterS quadPoints quadFace 1 = ⟨25 / 12, 3 / 4, 0⟩ := by
  simp only [triCenterS]
  rw [quad_pref_eval]
  norm_num [getN, getV, quadPoints, quadFace, Vector.mk.injEq]

theorem quad_tri2_center : triCenterS quadPoints quadFace 2 = ⟨3 / 4, 25 / 12, 0⟩ := by
  simp only [triCenterS]
  rw [quad_pref_eval]
  norm_num [getN, getV, quadPoints, quadFace, Vector.mk.injEq]

theorem quad_tri3_center : triCenterS quadPoints quadFace 3 = ⟨5 / 12, 7 / 4, 0⟩ := by
  simp only [triCenterS]
  rw [quad_pref_eval]
  norm_num [getN, getV, quadPoints, quadFace, Vector.mk.injEq]

/-- The summed fan area vector of the quadrilateral: magnitude 4. -/
theorem quad_fan_total_eval :
    ((List.range quadFace.length).map (fun i => triAreaVecS quadPoints quadFace i)).sum
      = ⟨0, 0, 4⟩ := by
  rw [quad_range_eval]
  simp only [List.map_cons, List.map_nil, List.sum_cons, List.sum_nil]
  rw [quad_tri0_area, quad_tri1_area, quad_tri2_area, quad_tri3_area]
  norm_num [Vector.mk.injEq]

/-- The weighted-centroid sum of the quadrilateral: the sum of the
triangle area magnitudes is `6`, while the magnitude of the summed area
vector is `4`. -/
theorem quad_fan_weighted_eval :
    ((List.range quadFace.length).map
        (fun i => triCenterS quadPoints quadFace i * (triAreaVecS quadPoints quadFace i).mag)).sum
      = ⟨41 / 6, 41 / 6, 0⟩ := by
  have habs1 : |(5 / 2 : ℝ)| = 5 / 2 := abs_of_pos (by norm_num)
  have habs2 : |(-(1 / 2) : ℝ)| = 1 / 2 := by
    rw [abs_neg]
    exact abs_of_pos (by norm_num)
  rw [quad_range_eval]
  simp only [List.map_cons, List.map_nil, List.sum_cons, List.sum_nil]
  rw [quad_tri0_area, quad_tri1_area, quad_tri2_area, quad_tri3_area,
    quad_tri0_center, quad_tri1_center, quad_tri2_center, quad_tri3_center]
  rw [mag_z_axis, mag_z_axis, habs1, habs2]
  norm_num [Vector.mk.injEq]

theorem quad_mag_sum_eval :
    ((List.range quadFace.length).map (fun i => (triAreaVecS quadPoints quadFace i).mag)).sum
      = 6 := by
  have habs1 : |(5 / 2 : ℝ)| = 5 / 2 := abs_of_pos (by norm_num)
  have habs2 : |(-(1 / 2) : ℝ)| = 1 / 2 := by
    rw [abs_neg]
    exact abs_of_pos (by norm_num)
  rw [quad_range_eval]
  simp only [List.map_cons, List.map_nil, List.sum_cons, List.sum_nil]
  rw [quad_tri0_area, quad_tri1_area, quad_tri2_area, quad_tri3_area]
  rw [mag_z_axis, mag_z_axis, habs1, habs2]
  norm_num

theorem quad_face_eval :
    compute_face_geometry quadPoints quadFace = (⟨41 / 24, 41 / 24, 0⟩, ⟨0, 0, 4⟩) := by
  simp only [compute_face_geometry]
  rw [faceFan_eq]
  dsimp only
  rw [quad_fan_total_eval, quad_fan_weighted_eval, mag_z_axis,
    show |(4 : ℝ)| = 4 from abs_of_pos (by norm_num)]
  rw [if_pos (by norm_num : (4 : ℝ) > 1e-30)]
  norm_num [Vector.mk.injEq]

theorem quad_spec_centroid_eval :
    specFaceCentroid quadPoints quadFace = ⟨41 / 36, 41 / 36, 0⟩ := by
  simp only [specFaceCentroid]
  rw [quad_fan_weighted_eval, quad_mag_sum_eval]
  norm_num [Vector.mk.injEq]

/-- Claim C3, as stated, is false: for the non-convex quadrilateral face
`quadFace` over `quadPoints` the total area-vector magnitude is `4 >
1e-30`, yet the centroid returned by `compute_face_geometry`,
`(41/24, 41/24, 0)`, is not the area-magnitude-weighted average of the
fan-triangle centroids `(41/36, 41/36, 0)`: the code divides by the
magnitude of the summed area vector (4), not by the sum of the triangle
area magnitudes (6). -/
theorem C3_sum_of_magnitudes_counterexample :
    ((((List.range quadFace.length).map
        (fun i => triAreaVecS quadPoints quadFace i)).sum).mag > 1e-30)
    ∧ (compute_face_geometry quadPoints quadFace).1
        ≠ specFaceCentroid quadPoints quadFace := by
  constructor
  · rw [quad_fan_total_eval, mag_z_axis]
    norm_num
  · rw [quad_face_eval, quad_spec_centroid_eval]
    intro h
    norm_num [Vector.mk.injEq] at h

/-- Witness for the amended claim C3 at the quadrilateral face. -/
theorem C3_centroid_weighted_by_total_mag_witness :
    (∀ i ∈ quadFace, i < quadPoints.length)
    ∧ ((((List.range quadFace.length).map
        (fun i => triAreaVecS quadPoints quadFace i)).sum).mag > 1e-30)
    ∧ (compute_face_geometry quadPoints quadFace).1
        = (((List.range quadFace.length).map
            (fun i => triCenterS quadPoints quadFace i *
              (triAreaVecS quadPoints quadFace i).mag)).sum) /
          ((((List.range quadFace.length).map
            (fun i => triAreaVecS quadPoints quadFace i)).sum).mag) := by
  have hvalid : ∀ i ∈ quadFace, i < quadPoints.length := by decide
  have hpos : ((((List.range quadFace.length).map
      (fun i => triAreaVecS quadPoints quadFace i)).sum).mag) > 1e-30 := by
    rw [quad_fan_total_eval, mag_z_axis]
    norm_num
  exact ⟨hvalid, hpos,
    C3_centroid_weighted_by_total_mag quadPoints quadFace hvalid hpos⟩

/-! ## Witnesses -/

/-- The degenerate-face volume accumulator evaluates to zero. -/
theorem degen_cellaccum_vol_eval :
    (cellAccum degenPoints degenFaces [0, 0] [] 0).1 0 = 0 := by
  have hfo : (List.range ([0, 0] : List ℕ).length).filter (fun fi => getN [0, 0] fi = 0)
      = [0, 1] := by decide
  have hfn0 : (List.range (0 : ℕ)).filter (fun fi => getN [] fi = 0) = [] := by decide
  rw [cellAccum_fst, hfo, hfn0]
  norm_num [pyrVol, degen_face_geom_eval, getPair, Vector.dot]

/-- Witness for claim C4 at a degenerate (coincident-vertex) face. -/
theorem C4_face_ref_mean_and_degenerate_fallback_witness :
    (∀ i ∈ ([0, 0, 0] : List ℕ), i < degenPoints.length)
    ∧ (face_p_ref degenPoints [0, 0, 0]
          = ((([0, 0, 0] : List ℕ).map (fun idx => getV degenPoints idx)).sum) /
            ((([0, 0, 0] : List ℕ).length : ℝ))
      ∧ (faceFan degenPoints [0, 0, 0]).1
          = ((List.range ([0, 0, 0] : List ℕ).length).map
              (fun i => triAreaVecS degenPoints [0, 0, 0] i)).sum
      ∧ ((faceFan degenPoints [0, 0, 0]).1.mag ≤ 1e-30 →
          (compute_face_geometry degenPoints [0, 0, 0]).1 = face_p_ref degenPoints [0, 0, 0]
          ∧ (compute_face_geometry degenPoints [0, 0, 0]).2
              = (faceFan degenPoints [0, 0, 0]).1)) := by
  have hvalid : ∀ i ∈ ([0, 0, 0] : List ℕ), i < degenPoints.length := by decide
  exact ⟨hvalid, C4_face_ref_mean_and_degenerate_fallback degenPoints [0, 0, 0] hvalid⟩

/-- Witness for claim C5 at a one-cell mesh of two degenerate faces. -/
theorem C5_pyramidal_accumulation_witness :
    ((0 : ℕ) < 1 ∧ ([0, 0] : List ℕ).length = degenFaces.length
      ∧ (0 : ℕ) ≤ ([] : List ℕ).length ∧ (∀ o ∈ ([0, 0] : List ℕ), o < 1)
      ∧ (∀ fi < (0 : ℕ), getN [] fi < 1))
    ∧ (getR (compute_cell_geometry degenPoints degenFaces [0, 0] [] 0 1).1 0
        = (((List.range ([0, 0] : List ℕ).length).filter (fun f => getN [0, 0] f = 0)).map
            (fun f => pyrVol degenPoints degenFaces [0, 0] [] f 0)).sum
          + (((List.range (0 : ℕ)).filter (fun f => getN [] f = 0)).map
            (fun f => pyrVolN degenPoints degenFaces [0, 0] [] f 0)).sum
      ∧ (cellAccum degenPoints degenFaces [0, 0] [] 0).2 0
        = (((List.range ([0, 0] : List ℕ).length).filter (fun f => getN [0, 0] f = 0)).map
            (fun f => pyrCenter degenPoints degenFaces [0, 0] [] f 0 *
              pyrVol degenPoints degenFaces [0, 0] [] f 0)).sum
          + (((List.range (0 : ℕ)).filter (fun f => getN [] f = 0)).map
            (fun f => pyrCenter degenPoints degenFaces [0, 0] [] f 0 *
              pyrVolN degenPoints degenFaces [0, 0] [] f 0)).sum) := by
  refine ⟨⟨by norm_num, by decide, by decide, by decide, by decide⟩, ?_⟩
  exact C5_pyramidal_accumulation degenPoints degenFaces [0, 0] [] 0 1 0
    (by norm_num) (by decide) (by decide) (by decide) (by decide)

/-- Witness for claim C6 at a degenerate one-cell mesh of volume zero. -/
theorem C6_degenerate_cell_fallback_witness :
    ((0 : ℕ) < 1 ∧ |(cellAccum degenPoints degenFaces [0, 0] [] 0).1 0| ≤ 1e-30)
    ∧ (getV (compute_cell_geometry degenPoints degenFaces [0, 0] [] 0 1).2 0
        = cell_ref degenPoints degenFaces [0, 0] [] 0
      ∧ getR (compute_cell_geometry degenPoints degenFaces [0, 0] [] 0 1).1 0
        = (cellAccum degenPoints degenFaces [0, 0] [] 0).1 0) := by
  have hdeg : |(cellAccum degenPoints degenFaces [0, 0] [] 0).1 0| ≤ 1e-30 := by
    rw [degen_cellaccum_vol_eval]
    norm_num
  exact ⟨⟨by norm_num, hdeg⟩,
    C6_degenerate_cell_fallback degenPoints degenFaces [0, 0] [] 0 1 0 (by norm_num) hdeg⟩

/-- Witness for claim C7 at a two-cell mesh with one internal face. -/
theorem C7_cell_faces_owner_before_neighbor_witness :
    ((0 : ℕ) < 2 ∧ (∀ o ∈ ([0, 1, 0] : List ℕ), o < 2)
      ∧ (1 : ℕ) ≤ ([1] : List ℕ).length ∧ (∀ fi < (1 : ℕ), getN [1] fi < 2))
    ∧ getF (compute_cell_faces [0, 1, 0] [1] 1 2) 0
        = (List.range ([0, 1, 0] : List ℕ).length).filter (fun fi => getN [0, 1, 0] fi = 0)
          ++ (List.range (1 : ℕ)).filter (fun fi => getN [1] fi = 0) := by
  refine ⟨⟨by norm_num, by decide, by decide, by decide⟩, ?_⟩
  exact C7_cell_faces_owner_before_neighbor [0, 1, 0] [1] 1 2 0
    (by norm_num) (by decide) (by decide) (by decide)

/-- Witness for claim C8 at a two-cell mesh with one internal face. -/
theorem C8_cell_cells_symmetric_witness :
    ((0 : ℕ) < 2 ∧ (1 : ℕ) < 2 ∧ (0 : ℕ) ≠ 1
      ∧ (1 : ℕ) ≤ ([0] : List ℕ).length ∧ (1 : ℕ) ≤ ([1] : List ℕ).length
      ∧ (∀ fi < (1 : ℕ), getN [0] fi < 2) ∧ (∀ fi < (1 : ℕ), getN [1] fi < 2))
    ∧ (((getF (compute_cell_cells [] [0] [1] 1 2) 0).count 1
        = (getF (compute_cell_cells [] [0] [1] 1 2) 1).count 0)
      ∧ ((getF (compute_cell_cells [] [0] [1] 1 2) 0).count 1
        = ((List.range (1 : ℕ)).filter (fun fi =>
            (getN [0] fi = 0 ∧ getN [1] fi = 1) ∨
            (getN [0] fi = 1 ∧ getN [1] fi = 0))).length)) := by
  refine ⟨⟨by norm_num, by norm_num, by decide, by decide, by decide, by decide, by decide⟩, ?_⟩
  exact C8_cell_cells_symmetric [] [0] [1] 1 2 0 1
    (by norm_num) (by norm_num) (by decide) (by decide) (by decide) (by decide) (by decide)

/-- Witness for claim C9 at a one-cell mesh with a single two-point face. -/
theorem C9_cell_points_sorted_union_witness :
    ((0 : ℕ) < 1 ∧ (0 : ℕ) < ([[0]] : List (List ℕ)).length
      ∧ (∀ fi ∈ getF [[0]] 0, fi < ([[0, 1]] : List (List ℕ)).length))
    ∧ (List.Sorted (· < ·) (getF (compute_cell_points [[0]] [[0, 1]] 1) 0)
      ∧ ∀ p : ℕ, (p ∈ getF (compute_cell_points [[0]] [[0, 1]] 1) 0 ↔
          ∃ fi ∈ getF [[0]] 0, p ∈ getF [[0, 1]] fi)) := by
  refine ⟨⟨by norm_num, by decide, by decide⟩, ?_⟩
  exact C9_cell_points_sorted_union [[0]] [[0, 1]] 1 0 (by norm_num) (by decide) (by decide)

/-- Witness for claim C10 at a mesh with one face-less cell. -/
theorem C10_empty_cell_zero_volume_and_centroid_witness :
    ((0 : ℕ) < 1 ∧ (0 : ℕ) ≤ ([] : List ℕ).length
      ∧ (0 : ℕ) ∉ ([] : List ℕ) ∧ (0 : ℕ) ∉ ([] : List ℕ))
    ∧ (getR (compute_cell_geometry [] [] [] [] 0 1).1 0 = 0
      ∧ getV (compute_cell_geometry [] [] [] [] 0 1).2 0 = Vector.zero) := by
  refine ⟨⟨by norm_num, by decide, by decide, by decide⟩, ?_⟩
  exact C10_empty_cell_zero_volume_and_centroid [] [] [] [] 0 1 0
    (by norm_num) (by decide) (by decide) (by decide)

end Dugong
